import Mathlib

/- Shallow embedding of the Ethiopian calendar package
   (pkg/ethiopiancalendar.go of mel-ak/ethiopiancalendar).

   Modelling conventions:
   - Go `int` is modelled as `Int`; Go `/` and `%` truncate toward zero and are
     modelled by `Int.tdiv` and `Int.tmod` (Lean's `/` on `Int` is Euclidean
     division, which differs on negative operands).
   - a Go function returning `(T, error)` is modelled as `Except String T`;
     `Validate`, which returns a bare `error`, is modelled as `Option String`
     with `none` standing for the `nil` error.
   - the fixed global `monthNames` slice is a `List String`; Go's unchecked
     index expression `monthNames[d.Month]` panics when the index is outside
     `0..13`, which `Format` models by returning `none`. -/

/-- EtDate represents a date in the Ethiopian Calendar (struct EtDate). -/
structure EtDate where
  year : Int
  month : Int
  day : Int
deriving Repr, DecidableEq

/-- The fixed month-name table `monthNames` (index 0 is an empty placeholder). -/
def monthNames : List String :=
  ["", "Meskerem", "Tikimt", "Hidar", "Tahsas", "Tir", "Yekatit", "Megabit",
   "Miazia", "Genbot", "Sene", "Hamle", "Nehase", "Pagume"]

/-- The constant `jdOffset`, the JDN of 1 Mäskäräm 1 EC. -/
def jdOffset : Int := 1724221

/-- IsLeap checks if the given Ethiopian year is a leap year. -/
def IsLeap (year : Int) : Bool :=
  if year < 0 then false
  else Int.tmod year 4 == 3

/-- DaysInMonth returns the number of days in the specified Ethiopian month and year. -/
def DaysInMonth (year month : Int) : Int :=
  if month < 1 || month > 13 then 0
  else if month == 13 then
    if IsLeap year then 6 else 5
  else 30

/-- Validate checks if the EtDate is valid (`none` models the nil error). -/
def EtDate.Validate (d : EtDate) : Option String :=
  if d.year ≤ 0 then some "year must be positive"
  else if d.month < 1 || d.month > 13 then some "month must be between 1 and 13"
  else if d.day < 1 || d.day > DaysInMonth d.year d.month then some "day out of range for month"
  else none

/-- ToJDN converts an Ethiopian date to Julian Day Number. -/
def EtDate.ToJDN (d : EtDate) : Except String Int :=
  match d.Validate with
  | some e => .error e
  | none => .ok (jdOffset + 365 * (d.year - 1) + Int.tdiv d.year 4 + 30 * (d.month - 1) + d.day - 1)

/-- Tail of JDNToEt, shared by its two year-estimate branches: the Go code
runs this block once the pair (year, yearStartJDN) has been settled. It
computes the month and day from the days since the year's start, applies the
month-overflow rollover (the rollover updates year, month and day exactly as
the assignments in the Go branch do), and validates the result. -/
def jdnToEtFinish (jdn year yearStartJDN : Int) : Except String EtDate :=
  let daysSinceYearStart := jdn - yearStartJDN
  if daysSinceYearStart < 0 then .error "invalid day calculation"
  else
    let month := Int.tdiv daysSinceYearStart 30 + 1
    let day := Int.tmod daysSinceYearStart 30 + 1
    let y := if month > 13 then year + 1 else year
    let m := if month > 13 then 1 else month
    let dd := if month > 13 then daysSinceYearStart - 12 * 30 + 1 else day
    let d := EtDate.mk y m dd
    match d.Validate with
    | some e => .error e
    | none => .ok d

/-- JDNToEt converts a Julian Day Number to an Ethiopian Calendar date. -/
def JDNToEt (jdn : Int) : Except String EtDate :=
  if jdn < jdOffset then .error "jdn before Ethiopian epoch"
  else
    let fixed := jdn - jdOffset
    let year1 := Int.tdiv fixed 365
    match (EtDate.mk year1 1 1).ToJDN with
    | .error e => .error e
    | .ok start1 =>
      if jdn < start1 then
        match (EtDate.mk (year1 - 1) 1 1).ToJDN with
        | .error e => .error e
        | .ok start2 => jdnToEtFinish jdn (year1 - 1) start2
      else jdnToEtFinish jdn year1 start1

/-- GregorianToJDN converts a Gregorian date to Julian Day Number. -/
def GregorianToJDN (year month day : Int) : Except String Int :=
  if year == 0 then .error "no year 0 in Gregorian"
  else if month < 1 || month > 12 then .error "month must be between 1 and 12"
  else if day < 1 then .error "day must be positive"
  else
    let febDays : Int :=
      if Int.tmod year 4 == 0 && (Int.tmod year 100 != 0 || Int.tmod year 400 == 0) then 29
      else 28
    let daysInMonth : List Int := [31, febDays, 31, 30, 31, 30, 31, 31, 30, 31, 30, 31]
    if day > daysInMonth.getD (month - 1).toNat 0 then .error "day is out of range for the given month"
    else
      let a := Int.tdiv (14 - month) 12
      let y := year + 4800 - a
      let m := month + 12 * a - 3
      .ok (day + Int.tdiv (153 * m + 2) 5 + 365 * y + Int.tdiv y 4 - Int.tdiv y 100 + Int.tdiv y 400 - 32045)

/-- JDNToGregorian converts a Julian Day Number to a Gregorian date. -/
def JDNToGregorian (jdn : Int) : Except String (Int × Int × Int) :=
  let a := jdn + 32044
  let b := Int.tdiv (4 * a + 3) 146097
  let c := a - Int.tdiv (146097 * b) 4
  let d := Int.tdiv (4 * c + 3) 1461
  let e := c - Int.tdiv (1461 * d) 4
  let m := Int.tdiv (5 * e + 2) 153
  let day := e - Int.tdiv (153 * m + 2) 5 + 1
  let month := m + 3 - 12 * Int.tdiv m 10
  let year := 100 * b + d - 4800 + Int.tdiv m 10
  if year ≤ 0 then .error "invalid Gregorian year"
  else .ok (year, month, day)

/-- ToGregorian converts an Ethiopian Calendar date to a Gregorian date. -/
def EtDate.ToGregorian (d : EtDate) : Except String (Int × Int × Int) :=
  match d.ToJDN with
  | .error e => .error e
  | .ok jdn => JDNToGregorian jdn

/-- Gregorian leap test used by the Go standard time package (4/100/400 rule). -/
def goIsLeapGregorian (year : Int) : Bool :=
  Int.tmod year 4 == 0 && (Int.tmod year 100 != 0 || Int.tmod year 400 == 0)

/-- Month length used by the Go standard time package when parsing a date. -/
def goDaysIn (year month : Int) : Int :=
  if month == 2 && goIsLeapGregorian year then 29
  else [31, 28, 31, 30, 31, 30, 31, 31, 30, 31, 30, 31].getD (month - 1).toNat 0

/-- Success condition of the pre-validation step of FromGregorian, which runs
Go standard library code: it formats the input with
fmt.Sprintf of percent-04d dash percent-02d dash percent-02d and re-parses the string with
time.Parse on layout 2006-01-02. The parse succeeds exactly when the year
prints as four digits (0 ≤ year ≤ 9999; a negative year prints a sign and a
year above 9999 prints five digits, either of which breaks the layout), the
month prints as two digits and is in 1..12, and the day prints as two digits
and is in 1..daysIn(month, year) per the time package's range checks. -/
def gregorianParseOk (year month day : Int) : Bool :=
  0 ≤ year && year ≤ 9999 && 1 ≤ month && month ≤ 12 && 1 ≤ day && day ≤ goDaysIn year month

/-- FromGregorian converts a Gregorian date to an Ethiopian Calendar date. -/
def FromGregorian (year month day : Int) : Except String EtDate :=
  if !gregorianParseOk year month day then .error "invalid Gregorian date"
  else
    match GregorianToJDN year month day with
    | .error e => .error e
    | .ok jdn => JDNToEt jdn

/-- Left-pad a decimal string with zeros to the given width. -/
def padZeros (w : Nat) (s : String) : String :=
  if s.length ≥ w then s else String.mk (List.replicate (w - s.length) '0') ++ s

/-- Models fmt.Sprintf with a zero-padded width-w decimal verb on an integer. -/
def sprintfZeroPad (w : Nat) (n : Int) : String :=
  if n < 0 then "-" ++ padZeros (w - 1) (toString n.natAbs) else padZeros w (toString n.natAbs)

/-- Format formats the Ethiopian date according to the specified layout.
The Go body evaluates the index expression monthNames[d.Month] before the
final replacement regardless of the layout's content, and that expression
panics when d.Month is outside 0..13; the panic is modelled by `none`. -/
def EtDate.Format (d : EtDate) (layout : String) : Option String :=
  if 0 ≤ d.month && d.month ≤ 13 then
    some ((((layout.replace "YYYY" (sprintfZeroPad 4 d.year)).replace
      "MM" (sprintfZeroPad 2 d.month)).replace
      "DD" (sprintfZeroPad 2 d.day)).replace
      "Month" (monthNames.getD d.month.toNat ""))
  else none

/-- AddDays adds or subtracts the specified number of days to the Ethiopian date. -/
def EtDate.AddDays (d : EtDate) (days : Int) : Except String EtDate :=
  match d.ToJDN with
  | .error e => .error e
  | .ok jdn => JDNToEt (jdn + days)

/-- AddMonths adds or subtracts the specified number of months to the Ethiopian date. -/
def EtDate.AddMonths (d : EtDate) (months : Int) : EtDate :=
  let m0 := d.month + Int.tmod months 13
  let y := if m0 > 13 then d.year + Int.tdiv months 13 + 1
    else if m0 < 1 then d.year + Int.tdiv months 13 - 1
    else d.year + Int.tdiv months 13
  let m := if m0 > 13 then m0 - 13 else if m0 < 1 then m0 + 13 else m0
  let maxDay := DaysInMonth y m
  EtDate.mk y m (if d.day > maxDay then maxDay else d.day)

/-- AddYears adds or subtracts the specified number of years to the Ethiopian date. -/
def EtDate.AddYears (d : EtDate) (years : Int) : EtDate :=
  let y := d.year + years
  let day :=
    if d.month == 13 then
      let maxDay := DaysInMonth y 13
      if d.day > maxDay then maxDay else d.day
    else d.day
  EtDate.mk y d.month day

/-- AddMonths as the specification words it, for comparison with the code's
`EtDate.AddMonths`: year advances by the floor of n/13, month by the
non-negative residue n mod 13, followed by the same normalization and
day-clamping steps the specification lists. -/
def specAddMonths (d : EtDate) (n : Int) : EtDate :=
  let m0 := d.month + n % 13
  let y := if m0 > 13 then d.year + Int.fdiv n 13 + 1
    else if m0 < 1 then d.year + Int.fdiv n 13 - 1
    else d.year + Int.fdiv n 13
  let m := if m0 > 13 then m0 - 13 else if m0 < 1 then m0 + 13 else m0
  let maxDay := DaysInMonth y m
  EtDate.mk y m (if d.day > maxDay then maxDay else d.day)

/- Helper lemmas bridging Go's truncated division to Lean's Euclidean
   division, and characterizations of the validation predicate. -/

theorem tdiv_eq_cases (a b : Int) (hb : 0 ≤ b) :
    Int.tdiv a b = if 0 ≤ a then a / b else -(-a / b) := by
  by_cases h : 0 ≤ a
  · rw [if_pos h, Int.tdiv_eq_ediv h hb]
  · rw [if_neg h]
    have h2 := Int.neg_tdiv (-a) b
    simp only [neg_neg] at h2
    rw [h2, Int.tdiv_eq_ediv (by omega) hb]

theorem tmod_eq_cases (a b : Int) (hb : 0 ≤ b) :
    Int.tmod a b = a - b * (if 0 ≤ a then a / b else -(-a / b)) := by
  have h := Int.tmod_add_tdiv a b
  rw [← tdiv_eq_cases a b hb]
  omega

theorem validate_none_iff (d : EtDate) :
    d.Validate = none ↔
      0 < d.year ∧ 1 ≤ d.month ∧ d.month ≤ 13 ∧ 1 ≤ d.day ∧
        d.day ≤ DaysInMonth d.year d.month := by
  unfold EtDate.Validate
  split_ifs with h1 h2 h3 <;> simp_all <;> omega

theorem daysInMonth_bounds (y m : Int) (h1 : 1 ≤ m) (h2 : m ≤ 13) :
    5 ≤ DaysInMonth y m ∧ DaysInMonth y m ≤ 30 := by
  unfold DaysInMonth
  split_ifs <;> simp_all <;> omega

theorem jdnToEtFinish_ok_validate (jdn year start : Int) (d : EtDate)
    (h : jdnToEtFinish jdn year start = .ok d) : d.Validate = none := by
  unfold jdnToEtFinish at h
  dsimp only at h
  split at h
  · cases h
  · split at h
    · cases h
    · injection h with h2
      subst h2
      assumption

theorem jdnToEt_ok_validate (jdn : Int) (d : EtDate) (h : JDNToEt jdn = .ok d) :
    d.Validate = none := by
  unfold JDNToEt at h
  dsimp only at h
  split at h
  · cases h
  · split at h
    · cases h
    · split at h
      · split at h
        · cases h
        · exact jdnToEtFinish_ok_validate _ _ _ _ h
      · exact jdnToEtFinish_ok_validate _ _ _ _ h

/-- C7: for every integer year > 0, IsLeap returns true exactly when
year mod 4 = 3, and IsLeap returns false for every year ≤ 0. -/
theorem isLeap_rule (y : Int) :
    (0 < y → (IsLeap y = true ↔ y % 4 = 3)) ∧ (y ≤ 0 → IsLeap y = false) := by
  unfold IsLeap
  constructor
  · intro hy
    rw [if_neg (by omega)]
    simp only [beq_iff_eq]
    rw [tmod_eq_cases y 4 (by omega), if_pos (by omega)]
    omega
  · intro hy
    split_ifs with h
    · rfl
    · have hy0 : y = 0 := by omega
      subst hy0
      decide

theorem isLeap_rule_witness : IsLeap 2015 = true ∧ IsLeap (-3) = false :=
  ⟨((isLeap_rule 2015).1 (by decide)).2 (by decide), (isLeap_rule (-3)).2 (by decide)⟩

/-- C8: DaysInMonth returns the sentinel 0 outside months 1..13, returns 30
for months 1..12, and returns 6 or 5 for month 13 according to IsLeap. -/
theorem daysInMonth_rule (y m : Int) :
    ((m < 1 ∨ 13 < m) → DaysInMonth y m = 0) ∧
    (1 ≤ m → m ≤ 12 → DaysInMonth y m = 30) ∧
    DaysInMonth y 13 = (if IsLeap y then 6 else 5) := by
  unfold DaysInMonth
  refine ⟨?_, ?_, ?_⟩
  · intro h
    split_ifs with h1 h2 <;> simp_all <;> omega
  · intro h1 h2
    split_ifs with h3 h4 <;> simp_all <;> omega
  · split_ifs with h1 h2 <;> simp_all

theorem daysInMonth_rule_witness : DaysInMonth 2000 0 = 0 ∧ DaysInMonth 2000 5 = 30 :=
  ⟨(daysInMonth_rule 2000 0).1 (Or.inl (by decide)),
   (daysInMonth_rule 2000 5).2.1 (by decide) (by decide)⟩

/-- C9 counterexample: the claim says Validate on {2017, 2, 6} fails with an
error, but the code accepts this date (day 6 lies within month 2's 30 days),
so no error string is ever returned for it. -/
theorem validate_2017_2_6_refutes_claim :
    ¬ ∃ s, (EtDate.mk 2017 2 6).Validate = some s := by
  intro h
  obtain ⟨s, hs⟩ := h
  have hnone : (EtDate.mk 2017 2 6).Validate = none := by decide
  rw [hnone] at hs
  cases hs

/-- C9 amended: Validate applied to {2017, 2, 6} succeeds with no error. -/
theorem validate_2017_2_6_ok : (EtDate.mk 2017 2 6).Validate = none := by decide

/-- C5: the conversion anchor holds in both directions: Ethiopian
{2016, 1, 1} converts to Gregorian (2023, 9, 12) and back. -/
theorem anchor_conversion :
    (EtDate.mk 2016 1 1).ToGregorian = .ok (2023, 9, 12) ∧
    FromGregorian 2023 9 12 = .ok (EtDate.mk 2016 1 1) := by
  constructor <;> rfl

/-- C1 counterexample: {1, 1, 1} is a valid Ethiopian date whose JDN is the
epoch offset 1724221, yet JDNToEt on that JDN returns an error instead of
the date (the internal year estimate is 0 and ToJDN on year 0 fails), so
the round-trip does not hold for every valid date. -/
theorem roundtrip_fails_at_year_one :
    (EtDate.mk 1 1 1).Validate = none ∧
    (EtDate.mk 1 1 1).ToJDN = .ok 1724221 ∧
    JDNToEt 1724221 = .error "year must be positive" := by
  refine ⟨by decide, by rfl, by rfl⟩

/-- C2 counterexample: {1, 1, 1} is valid, yet AddMonths with -13 yields
{0, 1, 1}, whose year is not positive, so it fails validation. -/
theorem addMonths_leaves_valid_range :
    (EtDate.mk 1 1 1).Validate = none ∧
    (EtDate.mk 1 1 1).AddMonths (-13) = EtDate.mk 0 1 1 ∧
    (EtDate.mk 0 1 1).Validate = some "year must be positive" := by
  refine ⟨by decide, by rfl, by rfl⟩

/-- C3 counterexample: Format on a date with month 14 is not well-defined:
the Go code indexes the 14-entry month-name table at index 14 and panics,
modelled here by Format returning none. -/
theorem format_panics_on_month_14 :
    (EtDate.mk 2016 14 1).Format "YYYY-MM-DD" = none := by rfl

/-- C3 amended: every core operation of the embedding is a total function
(returns a result or an error) except Format, which is well-defined exactly
when the month lies in the table's index range 0..13; outside that range the
Go code panics on the table index. -/
theorem format_defined_iff_month_in_range (d : EtDate) (layout : String) :
    (∃ s, d.Format layout = some s) ↔ 0 ≤ d.month ∧ d.month ≤ 13 := by
  unfold EtDate.Format
  split_ifs with h
  · simp only [Bool.and_eq_true, decide_eq_true_eq] at h
    exact ⟨fun _ => h, fun _ => ⟨_, rfl⟩⟩
  · simp only [Bool.and_eq_true, decide_eq_true_eq] at h
    constructor
    · intro hex
      obtain ⟨s, hs⟩ := hex
      cases hs
    · intro hm
      exact absurd hm h

/-- C4: whenever JDNToEt returns a date without error, that date passes
validation: positive year, month in 1..13, day in 1..DaysInMonth. -/
theorem jdnToEt_ok_implies_valid (jdn : Int) (d : EtDate) (h : JDNToEt jdn = .ok d) :
    0 < d.year ∧ 1 ≤ d.month ∧ d.month ≤ 13 ∧ 1 ≤ d.day ∧
      d.day ≤ DaysInMonth d.year d.month :=
  (validate_none_iff d).mp (jdnToEt_ok_validate jdn d h)

theorem jdnToEt_ok_implies_valid_witness :
    JDNToEt 2460200 = .ok (EtDate.mk 2016 1 1) ∧
    (0 < (EtDate.mk 2016 1 1).year ∧ 1 ≤ (EtDate.mk 2016 1 1).month ∧
      (EtDate.mk 2016 1 1).month ≤ 13 ∧ 1 ≤ (EtDate.mk 2016 1 1).day ∧
      (EtDate.mk 2016 1 1).day ≤ DaysInMonth (EtDate.mk 2016 1 1).year (EtDate.mk 2016 1 1).month) :=
  ⟨by rfl, jdnToEt_ok_implies_valid 2460200 (EtDate.mk 2016 1 1) (by rfl)⟩

theorem tmod13_bounds (n : Int) : -12 ≤ Int.tmod n 13 ∧ Int.tmod n 13 ≤ 12 := by
  rw [tmod_eq_cases n 13 (by omega)]
  constructor <;> split_ifs <;> omega

theorem daysInMonth_of_le_12 (y m : Int) (h1 : 1 ≤ m) (h2 : m ≤ 12) : DaysInMonth y m = 30 := by
  unfold DaysInMonth
  have hc1 : ¬(m < 1 || m > 13) = true := by
    simp only [Bool.or_eq_true, decide_eq_true_eq, not_or, not_lt]
    omega
  rw [if_neg hc1]
  have hc2 : ¬(m == 13) = true := by
    simp only [beq_iff_eq]
    omega
  rw [if_neg hc2]

theorem mk_clamped_valid (y m day0 : Int) (hm1 : 1 ≤ m) (hm13 : m ≤ 13) (hd : 1 ≤ day0) :
    1 ≤ (if day0 > DaysInMonth y m then DaysInMonth y m else day0) ∧
    (if day0 > DaysInMonth y m then DaysInMonth y m else day0) ≤ DaysInMonth y m ∧
    (0 < y →
      (EtDate.mk y m (if day0 > DaysInMonth y m then DaysInMonth y m else day0)).Validate = none) := by
  have hB := daysInMonth_bounds y m hm1 hm13
  refine ⟨by split_ifs <;> omega, by split_ifs <;> omega, ?_⟩
  intro hy
  refine (validate_none_iff _).mpr ⟨hy, hm1, hm13, ?_, ?_⟩
  · dsimp only
    split_ifs <;> omega
  · dsimp only
    split_ifs <;> omega

/-- C2 amended: for a valid date and any count, AddMonths and AddYears always
return a date whose month is in 1..13 and whose day is in
1..DaysInMonth(year, month); the result can fail validation only because the
year field drops to zero or below (possible for negative counts), and whenever
the resulting year is positive the result passes validation. AddDays, whenever
it returns without error, returns a date that passes validation. AddMonths and
AddYears are total and report no error. -/
theorem arith_range_behavior (e : EtDate) (n : Int) (hv : e.Validate = none) :
    (1 ≤ (e.AddMonths n).month ∧ (e.AddMonths n).month ≤ 13 ∧
      1 ≤ (e.AddMonths n).day ∧
      (e.AddMonths n).day ≤ DaysInMonth (e.AddMonths n).year (e.AddMonths n).month ∧
      (0 < (e.AddMonths n).year → (e.AddMonths n).Validate = none)) ∧
    (1 ≤ (e.AddYears n).month ∧ (e.AddYears n).month ≤ 13 ∧
      1 ≤ (e.AddYears n).day ∧
      (e.AddYears n).day ≤ DaysInMonth (e.AddYears n).year (e.AddYears n).month ∧
      (0 < (e.AddYears n).year → (e.AddYears n).Validate = none)) ∧
    (∀ d, e.AddDays n = .ok d → d.Validate = none) := by
  obtain ⟨hy, hm1, hm13, hd1, hdD⟩ := (validate_none_iff e).mp hv
  have htm := tmod13_bounds n
  refine ⟨?_, ?_, ?_⟩
  · unfold EtDate.AddMonths
    dsimp only
    have hM1 : 1 ≤ (if e.month + Int.tmod n 13 > 13 then e.month + Int.tmod n 13 - 13
        else if e.month + Int.tmod n 13 < 1 then e.month + Int.tmod n 13 + 13
        else e.month + Int.tmod n 13) := by
      split_ifs <;> omega
    have hM13 : (if e.month + Int.tmod n 13 > 13 then e.month + Int.tmod n 13 - 13
        else if e.month + Int.tmod n 13 < 1 then e.month + Int.tmod n 13 + 13
        else e.month + Int.tmod n 13) ≤ 13 := by
      split_ifs <;> omega
    have hc := mk_clamped_valid
      (if e.month + Int.tmod n 13 > 13 then e.year + Int.tdiv n 13 + 1
        else if e.month + Int.tmod n 13 < 1 then e.year + Int.tdiv n 13 - 1
        else e.year + Int.tdiv n 13) _ e.day hM1 hM13 hd1
    exact ⟨hM1, hM13, hc.1, hc.2.1, hc.2.2⟩
  · unfold EtDate.AddYears
    dsimp only
    by_cases h13 : e.month = 13
    · rw [if_pos (by simp [h13])]
      have hc := mk_clamped_valid (e.year + n) 13 e.day (by omega) (by omega) hd1
      rw [h13]
      exact ⟨by omega, by omega, hc.1, hc.2.1, hc.2.2⟩
    · rw [if_neg (by simp [h13])]
      have hm12 : e.month ≤ 12 := by omega
      have h30a : DaysInMonth e.year e.month = 30 := daysInMonth_of_le_12 e.year e.month hm1 hm12
      have h30b : DaysInMonth (e.year + n) e.month = 30 :=
        daysInMonth_of_le_12 (e.year + n) e.month hm1 hm12
      refine ⟨hm1, hm13, hd1, by omega, ?_⟩
      intro hy2
      exact (validate_none_iff _).mpr ⟨hy2, hm1, hm13, hd1, by dsimp only; omega⟩
  · intro d h
    unfold EtDate.AddDays at h
    split at h
    · cases h
    · exact jdnToEt_ok_validate _ _ h

theorem arith_range_behavior_witness :
    (EtDate.mk 2015 13 6).Validate = none ∧
    (1 ≤ ((EtDate.mk 2015 13 6).AddYears 1).day ∧
      ((EtDate.mk 2015 13 6).AddYears 1).day ≤
        DaysInMonth ((EtDate.mk 2015 13 6).AddYears 1).year ((EtDate.mk 2015 13 6).AddYears 1).month) :=
  ⟨by decide,
   ⟨((arith_range_behavior (EtDate.mk 2015 13 6) 1 (by decide)).2.1).2.2.1,
    ((arith_range_behavior (EtDate.mk 2015 13 6) 1 (by decide)).2.1).2.2.2.1⟩⟩

theorem addMonths_branches_eq (yr mo dy a b c r : Int)
    (hm1 : 1 ≤ mo) (hm13 : mo ≤ 13)
    (heq : 13 * a + b = 13 * c + r) (hb1 : -12 ≤ b) (hb2 : b ≤ 12)
    (hr1 : 0 ≤ r) (hr2 : r ≤ 12) :
    EtDate.mk
      (if mo + b > 13 then yr + a + 1 else if mo + b < 1 then yr + a - 1 else yr + a)
      (if mo + b > 13 then mo + b - 13 else if mo + b < 1 then mo + b + 13 else mo + b)
      (if dy > DaysInMonth
          (if mo + b > 13 then yr + a + 1 else if mo + b < 1 then yr + a - 1 else yr + a)
          (if mo + b > 13 then mo + b - 13 else if mo + b < 1 then mo + b + 13 else mo + b)
        then DaysInMonth
          (if mo + b > 13 then yr + a + 1 else if mo + b < 1 then yr + a - 1 else yr + a)
          (if mo + b > 13 then mo + b - 13 else if mo + b < 1 then mo + b + 13 else mo + b)
        else dy) =
    EtDate.mk
      (if mo + r > 13 then yr + c + 1 else if mo + r < 1 then yr + c - 1 else yr + c)
      (if mo + r > 13 then mo + r - 13 else if mo + r < 1 then mo + r + 13 else mo + r)
      (if dy > DaysInMonth
          (if mo + r > 13 then yr + c + 1 else if mo + r < 1 then yr + c - 1 else yr + c)
          (if mo + r > 13 then mo + r - 13 else if mo + r < 1 then mo + r + 13 else mo + r)
        then DaysInMonth
          (if mo + r > 13 then yr + c + 1 else if mo + r < 1 then yr + c - 1 else yr + c)
          (if mo + r > 13 then mo + r - 13 else if mo + r < 1 then mo + r + 13 else mo + r)
        else dy) := by
  have hY : (if mo + b > 13 then yr + a + 1 else if mo + b < 1 then yr + a - 1 else yr + a)
      = (if mo + r > 13 then yr + c + 1 else if mo + r < 1 then yr + c - 1 else yr + c) := by
    split_ifs <;> omega
  have hM : (if mo + b > 13 then mo + b - 13 else if mo + b < 1 then mo + b + 13 else mo + b)
      = (if mo + r > 13 then mo + r - 13 else if mo + r < 1 then mo + r + 13 else mo + r) := by
    split_ifs <;> omega
  rw [hY, hM]

/-- C6: for every valid Ethiopian date and every integer month count, the
code's AddMonths (Go truncated division and remainder) agrees exactly with
the specification's algorithm specAddMonths (floor division and non-negative
modulus followed by the same normalization and day clamping). -/
theorem addMonths_matches_spec (e : EtDate) (n : Int) (hv : e.Validate = none) :
    e.AddMonths n = specAddMonths e n := by
  obtain ⟨hy, hm1, hm13, hd1, hdD⟩ := (validate_none_iff e).mp hv
  unfold EtDate.AddMonths specAddMonths
  dsimp only
  rw [Int.fdiv_eq_ediv n (by omega)]
  have htm := tmod13_bounds n
  have hsum := Int.tmod_add_tdiv n 13
  refine addMonths_branches_eq e.year e.month e.day (Int.tdiv n 13) (Int.tmod n 13)
    (n / 13) (n % 13) hm1 hm13 (by omega) htm.1 htm.2 (by omega) (by omega)

theorem addMonths_matches_spec_witness :
    (EtDate.mk 2016 5 10).Validate = none ∧
    (EtDate.mk 2016 5 10).AddMonths (-7) = specAddMonths (EtDate.mk 2016 5 10) (-7) :=
  ⟨by decide, addMonths_matches_spec (EtDate.mk 2016 5 10) (-7) (by decide)⟩

/-- C10: FromGregorian accepts only Gregorian years 1..9999: for every year
at most 0 or at least 10000 it returns an error for every month and day (its
pre-validation formats the input as a fixed-width date string and re-parses
it, and a parseable year 0 is still rejected by GregorianToJDN), even though
GregorianToJDN itself accepts negative years without error. -/
theorem fromGregorian_year_gate (y m d : Int) :
    ((y ≤ 0 ∨ 10000 ≤ y) → ∃ s, FromGregorian y m d = .error s) ∧
    (y < 0 → 1 ≤ m → m ≤ 12 → 1 ≤ d → d ≤ 28 → ∃ j, GregorianToJDN y m d = .ok j) := by
  constructor
  · intro hy
    unfold FromGregorian
    by_cases hp : gregorianParseOk y m d = true
    · have hy0 : y = 0 := by
        unfold gregorianParseOk at hp
        simp only [Bool.and_eq_true, decide_eq_true_eq] at hp
        omega
      simp only [hp, Bool.not_true, Bool.false_eq_true, if_false]
      subst hy0
      have hz : GregorianToJDN 0 m d = .error "no year 0 in Gregorian" := by
        unfold GregorianToJDN
        rw [if_pos (by simp)]
      rw [hz]
      exact ⟨_, rfl⟩
    · have hp2 : gregorianParseOk y m d = false := by
        revert hp
        cases gregorianParseOk y m d <;> simp
      simp only [hp2, Bool.not_false, if_true]
      exact ⟨_, rfl⟩
  · intro hy hm1 hm12 hd1 hd28
    unfold GregorianToJDN
    rw [if_neg (by simp only [beq_iff_eq]; omega)]
    rw [if_neg (by simp only [Bool.or_eq_true, decide_eq_true_eq, not_or, not_lt]; omega)]
    rw [if_neg (by simp only [decide_eq_true_eq, not_lt]; omega)]
    dsimp only
    rw [if_neg ?hday]
    case hday =>
      simp only [decide_eq_true_eq, not_lt]
      interval_cases m <;> simp_all <;> first | omega | (split_ifs <;> omega)
    exact ⟨_, rfl⟩

theorem fromGregorian_year_gate_witness :
    (∃ s, FromGregorian 0 9 12 = .error s) ∧ (∃ j, GregorianToJDN (-1) 1 1 = .ok j) :=
  ⟨(fromGregorian_year_gate 0 9 12).1 (Or.inl (by omega)),
   (fromGregorian_year_gate (-1) 1 1).2 (by omega) (by omega) (by omega) (by omega) (by omega)⟩

theorem toJDN_of_valid (e : EtDate) (hv : e.Validate = none) :
    e.ToJDN = .ok (jdOffset + 365 * (e.year - 1) + Int.tdiv e.year 4
      + 30 * (e.month - 1) + e.day - 1) := by
  unfold EtDate.ToJDN
  rw [hv]

theorem toJDN_year_start (y : Int) (hy : 0 < y) :
    (EtDate.mk y 1 1).ToJDN = .ok (jdOffset + 365 * (y - 1) + Int.tdiv y 4) := by
  have hd : DaysInMonth y 1 = 30 := daysInMonth_of_le_12 y 1 (by omega) (by omega)
  have hv : (EtDate.mk y 1 1).Validate = none :=
    (validate_none_iff _).mpr ⟨hy, by dsimp only; omega, by dsimp only; omega,
      by dsimp only; omega, by dsimp only; omega⟩
  rw [toJDN_of_valid _ hv]
  dsimp only
  congr 1
  ring

theorem daysInMonth_13_eval (y : Int) (hy : 0 ≤ y) :
    DaysInMonth y 13 = if y % 4 = 3 then 6 else 5 := by
  unfold DaysInMonth IsLeap
  rw [if_neg (by simp), if_pos (by simp)]
  rw [if_neg (show ¬y < 0 by omega)]
  have h := tmod_eq_cases y 4 (by omega)
  rw [if_pos hy] at h
  simp only [beq_iff_eq]
  rw [h]
  split_ifs <;> omega

theorem jdnToEtFinish_exact (y m d jdn start : Int)
    (hy : 0 < y) (hm1 : 1 ≤ m) (hm13 : m ≤ 13) (hd1 : 1 ≤ d)
    (hdD : d ≤ DaysInMonth y m)
    (hjdn : jdn = start + (30 * (m - 1) + d - 1)) :
    jdnToEtFinish jdn y start = .ok (EtDate.mk y m d) := by
  subst hjdn
  have hd30 : d ≤ 30 := le_trans hdD (daysInMonth_bounds y m hm1 hm13).2
  unfold jdnToEtFinish
  dsimp only
  have hds : start + (30 * (m - 1) + d - 1) - start = 30 * (m - 1) + d - 1 := by ring
  rw [hds]
  have hnn : ¬(30 * (m - 1) + d - 1 < 0) := by omega
  rw [if_neg hnn]
  have htd : Int.tdiv (30 * (m - 1) + d - 1) 30 + 1 = m := by
    rw [tdiv_eq_cases _ 30 (by omega), if_pos (by omega)]
    omega
  have htm : Int.tmod (30 * (m - 1) + d - 1) 30 + 1 = d := by
    rw [tmod_eq_cases _ 30 (by omega), if_pos (by omega)]
    omega
  rw [htd, htm]
  have hmgt : ¬(m > 13) := by omega
  simp only [if_neg hmgt]
  have hv : (EtDate.mk y m d).Validate = none :=
    (validate_none_iff _).mpr ⟨hy, hm1, hm13, hd1, by dsimp only; exact hdD⟩
  rw [hv]

/-- C1 corrected: the Ethiopian round-trip holds on the year range
1460..2922, which contains all contemporary dates: for every valid date in
that range, ToJDN succeeds and JDNToEt maps the resulting JDN back to the
same date. Outside the range the year estimate inside JDNToEt can miss the
correct year by more than the single correction step compensates, and
JDNToEt then returns an error (see the counterexample at year 1). -/
theorem toJDN_JDNToEt_roundtrip (e : EtDate) (hv : e.Validate = none)
    (hlo : 1460 ≤ e.year) (hhi : e.year ≤ 2922) :
    ∃ j, e.ToJDN = .ok j ∧ JDNToEt j = .ok e := by
  obtain ⟨hy, hm1, hm13, hd1, hdD⟩ := (validate_none_iff e).mp hv
  obtain ⟨y, m, d⟩ := e
  dsimp only at hy hm1 hm13 hd1 hdD hlo hhi
  refine ⟨jdOffset + 365 * (y - 1) + Int.tdiv y 4 + 30 * (m - 1) + d - 1, ?_, ?_⟩
  · exact toJDN_of_valid _ hv
  · have hoff : jdOffset = 1724221 := rfl
    have hty : Int.tdiv y 4 = y / 4 := by
      rw [tdiv_eq_cases y 4 (by omega), if_pos (by omega)]
    have hd30 : d ≤ 30 := le_trans hdD (daysInMonth_bounds y m hm1 hm13).2
    have hrD : 30 * (m - 1) + d - 1 ≤ 364 ∨ (30 * (m - 1) + d - 1 = 365 ∧ y % 4 = 3) := by
      by_cases h13 : m = 13
      · subst h13
        rw [daysInMonth_13_eval y (by omega)] at hdD
        split_ifs at hdD <;> omega
      · have h30 : DaysInMonth y m = 30 := daysInMonth_of_le_12 y m hm1 (by omega)
        omega
    unfold JDNToEt
    dsimp only
    have hstep1 : ¬(jdOffset + 365 * (y - 1) + Int.tdiv y 4 + 30 * (m - 1) + d - 1 < jdOffset) := by
      omega
    rw [if_neg hstep1]
    have hfix : jdOffset + 365 * (y - 1) + Int.tdiv y 4 + 30 * (m - 1) + d - 1 - jdOffset
        = 365 * (y - 1) + y / 4 + (30 * (m - 1) + d - 1) := by
      rw [hty]
      ring
    rw [hfix]
    have hest : Int.tdiv (365 * (y - 1) + y / 4 + (30 * (m - 1) + d - 1)) 365
        = (365 * (y - 1) + y / 4 + (30 * (m - 1) + d - 1)) / 365 := by
      rw [tdiv_eq_cases _ 365 (by omega), if_pos (by omega)]
    rw [hest]
    have hor : (365 * (y - 1) + y / 4 + (30 * (m - 1) + d - 1)) / 365 = y ∨
        (365 * (y - 1) + y / 4 + (30 * (m - 1) + d - 1)) / 365 = y + 1 := by
      omega
    rcases hor with hc | hc
    · rw [hc, toJDN_year_start y (by omega)]
      dsimp only
      have hge : ¬(jdOffset + 365 * (y - 1) + Int.tdiv y 4 + 30 * (m - 1) + d - 1
          < jdOffset + 365 * (y - 1) + Int.tdiv y 4) := by
        omega
      rw [if_neg hge]
      exact jdnToEtFinish_exact y m d _ _ hy hm1 hm13 hd1 hdD (by ring)
    · rw [hc, toJDN_year_start (y + 1) (by omega)]
      dsimp only
      have hty2 : Int.tdiv (y + 1) 4 = (y + 1) / 4 := by
        rw [tdiv_eq_cases _ 4 (by omega), if_pos (by omega)]
      have hlt : jdOffset + 365 * (y - 1) + Int.tdiv y 4 + 30 * (m - 1) + d - 1
          < jdOffset + 365 * (y + 1 - 1) + Int.tdiv (y + 1) 4 := by
        omega
      rw [if_pos hlt]
      rw [show y + 1 - 1 = y from by ring]
      rw [toJDN_year_start y (by omega)]
      dsimp only
      exact jdnToEtFinish_exact y m d _ _ hy hm1 hm13 hd1 hdD (by ring)

theorem toJDN_JDNToEt_roundtrip_witness :
    (EtDate.mk 2016 1 1).Validate = none ∧
    ∃ j, (EtDate.mk 2016 1 1).ToJDN = .ok j ∧ JDNToEt j = .ok (EtDate.mk 2016 1 1) :=
  ⟨by decide,
   toJDN_JDNToEt_roundtrip (EtDate.mk 2016 1 1) (by decide) (by decide) (by decide)⟩
